import Mathlib

/-!
Shallow embedding of the context-aware command assistance subsystem of an
interactive LDAP shell (command catalog, session context, suggestion engine,
command validator, query history, tab completion, help overlay), together
with theorems settling the specification claims about it.

Python dictionaries with a fixed key set are embedded as structures; result
dictionaries with optional keys use `Option` fields (`none` = key absent);
insertion-ordered dictionaries (`defaultdict` counters, the command catalog)
are embedded as insertion-ordered association lists.  Wall-clock timestamps
and disk persistence are not modelled.
-/

namespace Ldapie

/-- Whitespace characters recognised by Python `str.split()` with no
separator argument: space, tab, newline, carriage return, vertical tab,
form feed. -/
def pyIsSpace (c : Char) : Bool :=
  c == ' ' || c == '\t' || c == '\n' || c == '\r' || c == Char.ofNat 11 || c == Char.ofNat 12

/-- Worker for `tokenize`: `cur` holds the current word reversed. -/
def wordsAux : List Char → List Char → List (List Char)
  | cur, [] => if cur.isEmpty then [] else [cur.reverse]
  | cur, c :: cs =>
    if pyIsSpace c then
      if cur.isEmpty then wordsAux [] cs else cur.reverse :: wordsAux [] cs
    else wordsAux (c :: cur) cs

/-- Python `str.split()` with no argument: split on runs of whitespace,
dropping empty tokens. -/
def tokenize (s : String) : List String :=
  (wordsAux [] s.data).map (fun w => String.mk w)

/-- Python `str.startswith`. -/
def strStartsWith (s pre : String) : Bool :=
  List.isPrefixOf pre.data s.data

/-- Python `str.endswith`. -/
def strEndsWith (s suf : String) : Bool :=
  List.isPrefixOf suf.data.reverse s.data.reverse

/-- Worker for `strContains`: does `sub` occur as a contiguous run in the
first list? -/
def hasSub : List Char → List Char → Bool
  | [], sub => List.isPrefixOf sub []
  | c :: t, sub => List.isPrefixOf sub (c :: t) || hasSub t sub

/-- Python `in` on strings: substring containment. -/
def strContains (s sub : String) : Bool :=
  hasSub s.data sub.data

/-- One entry of the command catalog (`COMMAND_PATTERNS` values in
`help_context.py`).  The Python key `"syntax"` is renamed `synopsis`
because of the Lean keyword. -/
structure CommandPattern where
  synopsis : String
  examples : List String
  next_steps : List String
  common_errors : List String
deriving DecidableEq

/-- The command catalog, `COMMAND_PATTERNS` in `help_context.py`.
Python's insertion-ordered dict is embedded as an association list in the
same key order. -/
def COMMAND_PATTERNS : List (String × CommandPattern) :=
  [ ("search",
     { synopsis := "search <host> <base_dn> [<filter>] [options]"
       examples :=
         [ "search ldap.example.com 'dc=example,dc=com'"
         , "search ldap.example.com 'dc=example,dc=com' '(objectClass=person)' -a cn -a mail"
         , "search ldap.example.com 'dc=example,dc=com' --tree" ]
       next_steps :=
         [ "Use --json, --ldif, or --csv to change output format"
         , "Add -a attribute to specify attributes to retrieve"
         , "Use --tree to view results in a tree structure" ]
       common_errors :=
         [ "Missing quotes around base_dn or filter"
         , "Invalid filter syntax"
         , "Using special characters without escaping" ] })
  , ("info",
     { synopsis := "info <host> [options]"
       examples :=
         [ "info ldap.example.com"
         , "info ldap.example.com -u 'cn=admin,dc=example,dc=com'" ]
       next_steps :=
         [ "Use schema command to view object class details"
         , "Check server capabilities with --json option" ]
       common_errors :=
         [ "Authentication required for detailed information" ] })
  , ("compare",
     { synopsis := "compare <host> <dn1> <dn2> [options]"
       examples :=
         [ "compare ldap.example.com 'uid=user1,ou=people,dc=example,dc=com' 'uid=user2,ou=people,dc=example,dc=com'"
         , "compare ldap.example.com 'uid=user1,ou=people,dc=example,dc=com' 'uid=user2,ou=people,dc=example,dc=com' -a mail -a cn" ]
       next_steps :=
         [ "Specify attributes to compare with -a option"
         , "Use --json for machine-readable output" ]
       common_errors :=
         [ "DNs must be properly quoted"
         , "Both entries must exist" ] })
  , ("schema",
     { synopsis := "schema <host> [<object_class>] [options]"
       examples :=
         [ "schema ldap.example.com"
         , "schema ldap.example.com person"
         , "schema ldap.example.com --attr mail" ]
       next_steps :=
         [ "Look up specific object class details"
         , "Check attribute syntax with --attr option" ]
       common_errors :=
         [ "Object class or attribute may not exist" ] })
  , ("add",
     { synopsis := "add <host> <dn> [options]"
       examples :=
         [ "add ldap.example.com 'cn=newuser,ou=people,dc=example,dc=com' --class inetOrgPerson --attr cn=newuser --attr sn=User"
         , "add ldap.example.com 'cn=newgroup,ou=groups,dc=example,dc=com' --json group.json" ]
       next_steps :=
         [ "Use search to verify entry was added"
         , "Add additional attributes with --attr option" ]
       common_errors :=
         [ "Missing required attributes for object class"
         , "DN already exists"
         , "Parent DN doesn't exist" ] })
  , ("modify",
     { synopsis := "modify <host> <dn> [options]"
       examples :=
         [ "modify ldap.example.com 'cn=user1,ou=people,dc=example,dc=com' --add mail=user1@example2.com"
         , "modify ldap.example.com 'cn=user1,ou=people,dc=example,dc=com' --replace mobile=555-1234"
         , "modify ldap.example.com 'cn=user1,ou=people,dc=example,dc=com' --delete mail=user1@example.com" ]
       next_steps :=
         [ "Use search to verify changes"
         , "Combine multiple modifications in one command" ]
       common_errors :=
         [ "Attempting to modify non-existent entry"
         , "Missing required attributes"
         , "Deleting a value that doesn't exist" ] })
  , ("delete",
     { synopsis := "delete <host> <dn> [options]"
       examples :=
         [ "delete ldap.example.com 'cn=user1,ou=people,dc=example,dc=com'"
         , "delete ldap.example.com 'ou=people,dc=example,dc=com' --recursive" ]
       next_steps :=
         [ "Use --recursive for subtree deletion"
         , "Use search to verify deletion" ]
       common_errors :=
         [ "Entry has children (use --recursive)"
         , "Entry doesn't exist"
         , "Insufficient permissions" ] })
  , ("rename",
     { synopsis := "rename <host> <dn> <new_rdn> [options]"
       examples :=
         [ "rename ldap.example.com 'cn=user1,ou=people,dc=example,dc=com' 'cn=user1renamed'"
         , "rename ldap.example.com 'cn=user1,ou=people,dc=example,dc=com' 'cn=user1' --parent 'ou=admins,dc=example,dc=com'" ]
       next_steps :=
         [ "Use search to verify the rename"
         , "Use --parent to move entry to different location" ]
       common_errors :=
         [ "New RDN already exists"
         , "Parent DN doesn't exist"
         , "Missing required attributes in new RDN" ] })
  , ("interactive",
     { synopsis := "interactive [options]"
       examples :=
         [ "interactive"
         , "interactive --host ldap.example.com --base 'dc=example,dc=com'" ]
       next_steps :=
         [ "Use 'help' command to see available commands"
         , "Use 'connect' to establish connection"
         , "Use 'ls' to list entries" ]
       common_errors :=
         [ "Not connected to server (use connect command)"
         , "Not setting base DN (use cd command)" ] })
  ]

/-- Python `dict.get` on an insertion-ordered association list. -/
def lookupPattern : List (String × CommandPattern) → String → Option CommandPattern
  | [], _ => none
  | (k, p) :: rest, key => if k = key then some p else lookupPattern rest key

/-- Python `dict[key] = value` for a key already present: replace in place,
keeping order. -/
def updatePattern : List (String × CommandPattern) → String → CommandPattern →
    List (String × CommandPattern)
  | [], _, _ => []
  | (k, p) :: rest, key, q =>
    if k = key then (k, q) :: rest else (k, p) :: updatePattern rest key q

/-- Embeds `list(COMMAND_PATTERNS.keys())`. -/
def catalogKeys (cat : List (String × CommandPattern)) : List String :=
  cat.map Prod.fst

/-- Embeds `HelpContext.current_context` (`_initialize` in `help_context.py`).
`search_results` is an opaque result list; `operation_result` and
`last_entry` are opaque values. -/
structure CurrentContext where
  command : Option String := none
  subcommand : Option String := none
  host : Option String := none
  base_dn : Option String := none
  filt : Option String := none
  attributes : List String := []
  search_results : Option (List String) := none
  last_entry : Option String := none
  operation_result : Option String := none
deriving DecidableEq

/-- Embeds `HelpContext.session_state`.  The live server/connection objects are
opaque references, modelled as `Option String`. -/
structure SessionState where
  connected : Bool := false
  authenticated : Bool := false
  server : Option String := none
  connection : Option String := none
  ssl_enabled : Bool := false
deriving DecidableEq

/-- Embeds `HelpContext.user_preferences`. -/
structure UserPreferences where
  theme : String := "dark"
  output_format : String := "rich"
  page_size : Nat := 100
deriving DecidableEq

/-- The mutable state of the `HelpContext` singleton.  Because
`get_suggestions` aliases (and therefore can mutate) the module-level
`COMMAND_PATTERNS` lists, the catalog is part of the state.
`command_frequency` (a `defaultdict(int)`) is an insertion-ordered
association list; `error_history` records (command, message) pairs
(timestamps are not modelled). -/
structure HelpContext where
  catalog : List (String × CommandPattern) := COMMAND_PATTERNS
  command_history : List String := []
  current_context : CurrentContext := {}
  session_state : SessionState := {}
  user_preferences : UserPreferences := {}
  command_frequency : List (String × Nat) := []
  error_history : List (String × String) := []
deriving DecidableEq

/-- The state produced by `HelpContext._initialize`. -/
def initHelpContext : HelpContext := {}

/-- Python `collections.deque(maxlen=20).append`: append on the right, dropping
from the left when the bound is exceeded. -/
def pushHistory (h : List String) (s : String) : List String :=
  let h2 := h ++ [s]
  h2.drop (h2.length - 20)

/-- Python `defaultdict(int)` increment `freq[cmd] += 1`: bump in place if the
key exists, else append it with count 1 (dict insertion order). -/
def bumpFreq : List (String × Nat) → String → List (String × Nat)
  | [], cmd => [(cmd, 1)]
  | (k, n) :: rest, cmd =>
    if k = cmd then (k, n + 1) :: rest else (k, n) :: bumpFreq rest cmd

/-- Reading a `defaultdict(int)` without creating an entry: 0 if absent. -/
def lookupCount : List (String × Nat) → String → Nat
  | [], _ => 0
  | (k, n) :: rest, cmd => if k = cmd then n else lookupCount rest cmd

/-- Commands whose argument 1 is recorded as the host by `add_command`. -/
def hostCommands : List String :=
  ["search", "info", "add", "modify", "delete", "rename", "compare", "schema"]

/-- Commands whose argument 2 is recorded as the base DN by `add_command`. -/
def baseDnCommands : List String :=
  ["search", "add", "modify", "delete", "rename", "compare"]

/-- Embeds `HelpContext.add_command`: push the raw line on the history ring,
then (when the line has tokens) bump the leading token's frequency and,
for known commands, update the parsed context positionally. -/
def add_command (ctx : HelpContext) (command_str : String) : HelpContext :=
  let ctx := { ctx with command_history := pushHistory ctx.command_history command_str }
  match tokenize command_str with
  | [] => ctx
  | cmd :: args =>
    let ctx := { ctx with command_frequency := bumpFreq ctx.command_frequency cmd }
    if (lookupPattern ctx.catalog cmd).isSome then
      let cc := { ctx.current_context with command := some cmd }
      let cc := if args.length ≥ 1 ∧ cmd ∈ hostCommands then
          { cc with host := args.get? 0 } else cc
      let cc := if args.length ≥ 2 ∧ cmd ∈ baseDnCommands then
          { cc with base_dn := args.get? 1 } else cc
      let cc := if args.length ≥ 3 ∧ cmd = "search" then
          { cc with filt := args.get? 2 } else cc
      { ctx with current_context := cc }
    else ctx

/-- Embeds `HelpContext.add_error` (timestamp not modelled). -/
def add_error (ctx : HelpContext) (command_str error_msg : String) : HelpContext :=
  { ctx with error_history := ctx.error_history ++ [(command_str, error_msg)] }

/-- Embeds `HelpContext.update_session_state`: partial update, `none` arguments
leave the prior value. -/
def update_session_state (ctx : HelpContext) (connected authenticated : Option Bool)
    (server connection : Option String) (ssl_enabled : Option Bool) : HelpContext :=
  let st := ctx.session_state
  let st := match connected with | some b => { st with connected := b } | none => st
  let st := match authenticated with | some b => { st with authenticated := b } | none => st
  let st := match server with | some v => { st with server := some v } | none => st
  let st := match connection with | some v => { st with connection := some v } | none => st
  let st := match ssl_enabled with | some b => { st with ssl_enabled := b } | none => st
  { ctx with session_state := st }

/-- Embeds `HelpContext.update_operation_result`. -/
def update_operation_result (ctx : HelpContext) (result : String) : HelpContext :=
  { ctx with current_context := { ctx.current_context with operation_result := some result } }

/-- Embeds `HelpContext.update_search_results`. -/
def update_search_results (ctx : HelpContext) (results : List String) : HelpContext :=
  { ctx with current_context := { ctx.current_context with search_results := some results } }

/-- The dictionary returned by `get_suggestions`. -/
structure Suggestions where
  next_commands : List String := []
  examples : List String := []
  tips : List String := []
  corrections : List String := []
deriving DecidableEq

/-- The four hints appended to `next_commands` when search results exist. -/
def resultHints : List String :=
  [ "Use --json to output results in JSON format"
  , "Use --tree to view results in a hierarchical tree"
  , "Use --csv to export results to CSV"
  , "Use compare to compare two entries from the results" ]

/-- Authentication tip appended when connected but not authenticated. -/
def authTip : String := "Use -u and -p options to authenticate for more privileges"

/-- Transport-security tip appended when connected without SSL. -/
def sslTip : String := "Consider using --ssl for secure connection"

/-- Python truthiness of `current_context["search_results"]`: `None` and
the empty list are falsy. -/
def searchResultsTruthy (ctx : HelpContext) : Bool :=
  match ctx.current_context.search_results with
  | none => false
  | some l => !l.isEmpty

/-- Embeds `HelpContext.get_suggestions`.  In the Python source
`suggestions["next_commands"]`/`["examples"]`/`["tips"]` are assigned the
catalog entry's own list objects, so the later `extend`/`append` calls
mutate the catalog in place; the embedding returns the updated state
together with the suggestion record. -/
def get_suggestions (ctx : HelpContext) : HelpContext × Suggestions :=
  let st := ctx.session_state
  match ctx.current_context.command with
  | none =>
    let nexts := if searchResultsTruthy ctx then resultHints else []
    let tips1 : List String :=
      if !st.authenticated && st.connected then [authTip] else []
    let tips2 := if !st.ssl_enabled && st.connected then tips1 ++ [sslTip] else tips1
    (ctx, { next_commands := nexts, examples := [], tips := tips2, corrections := [] })
  | some cmd =>
    match lookupPattern ctx.catalog cmd with
    | none =>
      let nexts := if searchResultsTruthy ctx then resultHints else []
      let tips1 : List String :=
        if !st.authenticated && st.connected then [authTip] else []
      let tips2 := if !st.ssl_enabled && st.connected then tips1 ++ [sslTip] else tips1
      (ctx, { next_commands := nexts, examples := [], tips := tips2, corrections := [] })
    | some pat =>
      let nexts := if searchResultsTruthy ctx then pat.next_steps ++ resultHints
        else pat.next_steps
      let tips1 := if !st.authenticated && st.connected then pat.common_errors ++ [authTip]
        else pat.common_errors
      let tips2 := if !st.ssl_enabled && st.connected then tips1 ++ [sslTip] else tips1
      let cat' := updatePattern ctx.catalog cmd
        { pat with next_steps := nexts, common_errors := tips2 }
      ({ ctx with catalog := cat' },
       { next_commands := nexts, examples := pat.examples, tips := tips2, corrections := [] })

/-- The tips contributed by the current command's catalog entry alone
(its common-error hints), before any conditional session tips. -/
def catalogTips (ctx : HelpContext) : List String :=
  match ctx.current_context.command with
  | none => []
  | some cmd =>
    match lookupPattern ctx.catalog cmd with
    | none => []
    | some pat => pat.common_errors

/-! ### `difflib.SequenceMatcher` / `get_close_matches`

`get_close_matches(word, names, n=3, cutoff=0.6)` keeps the names whose
`SequenceMatcher` similarity ratio `2*M/T` is at least the cutoff (`M` =
total size of the matching blocks, `T` = combined length) and returns the
`n` best, ranked like `heapq.nlargest` on the `(ratio, name)` pairs.  The
strings involved are far too short for `difflib`'s autojunk heuristic to
trigger, and without junk the post-scan block-extension loops of
`find_longest_match` never fire, so the plain dynamic program below is
exact.  Ratios are compared as exact rationals; for the short strings
involved every distinct ratio differs by far more than double-precision
rounding, so this matches the Python float comparison. -/

/-- Length of the common run of `a` and `b` ending at positions `i`, `j`
(the `j2len` entries of `find_longest_match`). -/
def runEnd (a b : List Char) : Nat → Nat → Nat
  | 0, j => if a.get? 0 ≠ none ∧ a.get? 0 = b.get? j then 1 else 0
  | i + 1, 0 => if a.get? (i + 1) ≠ none ∧ a.get? (i + 1) = b.get? 0 then 1 else 0
  | i + 1, j + 1 =>
    if a.get? (i + 1) ≠ none ∧ a.get? (i + 1) = b.get? (j + 1) then runEnd a b i j + 1 else 0

/-- Embeds `SequenceMatcher.find_longest_match` over whole strings: scan all
cells in row-major order, keeping the first strict improvement, exactly
like the `j2len` loop; returns (start in `a`, start in `b`, size). -/
def findLongestMatch (a b : List Char) : Nat × Nat × Nat :=
  let cells := (List.range a.length).flatMap (fun i => (List.range b.length).map (fun j => (i, j)))
  cells.foldl
    (fun best c =>
      let k := runEnd a b c.1 c.2
      if k > best.2.2 then (c.1 + 1 - k, c.2 + 1 - k, k) else best)
    (0, 0, 0)

/-- Total size of `get_matching_blocks`: recursively split around the
longest match.  The fuel argument only bounds the recursion depth; since
each sub-problem is strictly smaller than `|a| + |b|`, the initial fuel
`|a| + |b| + 1` used by `matchedTotal` is never exhausted. -/
def matchedFuel : Nat → List Char → List Char → Nat
  | 0, _, _ => 0
  | fuel + 1, a, b =>
    let t := findLongestMatch a b
    if t.2.2 = 0 then 0
    else
      matchedFuel fuel (a.take t.1) (b.take t.2.1) + t.2.2 +
        matchedFuel fuel (a.drop (t.1 + t.2.2)) (b.drop (t.2.1 + t.2.2))

/-- Computes `M`: the total size of the matching blocks of `a` (seq1) and `b`
(seq2). -/
def matchedTotal (a b : List Char) : Nat :=
  matchedFuel (a.length + b.length + 1) a b

/-- Decides `SequenceMatcher.ratio() >= 0.6` for seq1 `x`, seq2 `word`:
`2*M/(|x|+|word|) ≥ 3/5` as exact rationals. -/
def similar (word x : String) : Bool :=
  10 * matchedTotal x.data word.data ≥ 3 * (x.data.length + word.data.length)

/-- Strict comparison of the `(ratio, name)` sort keys used by
`heapq.nlargest`: larger ratio first, ties by larger string.  Ratio
comparison is by cross-multiplication of the exact rationals. -/
def keyGT (word : String) (x y : String) : Prop :=
  2 * matchedTotal x.data word.data * (y.data.length + word.data.length) >
      2 * matchedTotal y.data word.data * (x.data.length + word.data.length)
    ∨ (2 * matchedTotal x.data word.data * (y.data.length + word.data.length) =
        2 * matchedTotal y.data word.data * (x.data.length + word.data.length)
      ∧ y < x)

instance (word : String) : DecidableRel (keyGT word) := by
  intro x y
  unfold keyGT
  infer_instance

/-- Descending insertion by `keyGT` (the key is a total order on the
distinct catalog names, so this is `nlargest`'s order). -/
def insertRanked (word : String) (x : String) : List String → List String
  | [] => [x]
  | y :: ys => if keyGT word y x then y :: insertRanked word x ys else x :: y :: ys

/-- Rank a list of candidate names best-first. -/
def rankMatches (word : String) : List String → List String
  | [] => []
  | x :: xs => insertRanked word x (rankMatches word xs)

/-- Embeds `difflib.get_close_matches(word, names, n, cutoff=0.6)`. -/
def get_close_matches (word : String) (names : List String) (n : Nat) : List String :=
  (rankMatches word (names.filter (fun x => similar word x))).take n

/-! ### `analyze_command` and `CommandValidator` -/

/-- A result dictionary from `analyze_command` / `validate_command`.
`Option` fields model optional dictionary keys (`none` = absent); the
list-valued keys `arguments`/`examples`/`next_steps`/`common_errors` are
only ever present together with the fields set here, so absent is
identified with empty for them.  `suggested_commands` keeps its
present/absent distinction via `Option`. -/
structure VResult where
  error : Option String := none
  suggested_commands : Option (List String) := none
  command : Option String := none
  arguments : List String := []
  synopsis : Option String := none
  examples : List String := []
  next_steps : List String := []
  common_errors : List String := []
  warning : Option String := none
  suggestion : Option String := none
  validation : Option String := none
  preview : Option String := none
deriving DecidableEq

/-- Minimum required argument count derived from a syntax template:
count the whitespace tokens not wrapped in `[` `]`, minus one for the
command name itself. -/
def requiredCount (template : String) : Nat :=
  ((tokenize template).filter
    (fun p => !(strStartsWith p "[" && strEndsWith p "]"))).length - 1

/-- Embeds `HelpContext.analyze_command`. -/
def analyze_command (ctx : HelpContext) (command_str : String) : VResult :=
  match tokenize command_str with
  | [] => { error := some "Empty command" }
  | cmd :: args =>
    match lookupPattern ctx.catalog cmd with
    | none =>
      match get_close_matches cmd (catalogKeys ctx.catalog) 3 with
      | [] => { error := some ("Command '" ++ cmd ++ "' not found.") }
      | m :: ms =>
        { error := some ("Command '" ++ cmd ++ "' not found. Did you mean '" ++ m ++ "'?")
          suggested_commands := some (m :: ms) }
    | some pat =>
      if args.length + 1 < requiredCount pat.synopsis + 1 then
        { error := some ("Not enough arguments for '" ++ cmd ++ "'. Syntax: " ++ pat.synopsis)
          synopsis := some pat.synopsis
          examples := pat.examples }
      else
        { command := some cmd
          arguments := args
          synopsis := some pat.synopsis
          examples := pat.examples
          next_steps := pat.next_steps
          common_errors := pat.common_errors }

/-- Embeds `CommandValidator._validate_search`. -/
def _validate_search (analysis : VResult) : VResult :=
  match analysis.arguments with
  | a0 :: a1 :: rest =>
    match rest with
    | fArg :: _ =>
      if !(strStartsWith fArg "(" && strEndsWith fArg ")") then
        { analysis with
          warning := some "LDAP filter should be enclosed in parentheses"
          suggestion := some ("Try: search " ++ a0 ++ " " ++ a1 ++ " '(" ++ fArg ++ ")'") }
      else
        { analysis with
          validation := some "Search command looks valid"
          preview := some ("Would search " ++ a0 ++ " with base DN " ++ a1) }
    | [] =>
      { analysis with
        validation := some "Search command looks valid"
        preview := some ("Would search " ++ a0 ++ " with base DN " ++ a1) }
  | _ =>
    { error := some "Not enough arguments for search command"
      synopsis := analysis.synopsis
      examples := analysis.examples }

/-- Embeds `CommandValidator._validate_add`. -/
def _validate_add (analysis : VResult) : VResult :=
  { analysis with
    validation := some "Add command structure looks valid"
    preview := some "Would add new entry to the directory" }

/-- Embeds `CommandValidator._validate_modify`. -/
def _validate_modify (analysis : VResult) : VResult :=
  { analysis with
    validation := some "Modify command structure looks valid"
    preview := some "Would modify the specified entry" }

/-- Embeds `CommandValidator._validate_delete`: the recursive-flag test is a raw
substring test on the whole command line. -/
def _validate_delete (command_str : String) (analysis : VResult) : VResult :=
  if !strContains command_str "--recursive" && !strContains command_str "-r" then
    { analysis with
      validation := some "Delete command structure looks valid"
      warning := some "Note: This will only delete the entry if it has no children"
      suggestion := some "Add --recursive flag to delete the entry and all its children"
      preview := some "Would delete the specified entry" }
  else
    { analysis with
      validation := some "Delete command structure looks valid"
      warning := some "This will delete the entry and all its children recursively"
      preview := some "Would recursively delete the specified entry and all children" }

/-- Embeds `CommandValidator._validate_rename`. -/
def _validate_rename (analysis : VResult) : VResult :=
  { analysis with
    validation := some "Rename command structure looks valid"
    preview := some "Would rename the specified entry" }

/-- Embeds `CommandValidator.validate_command`. -/
def validate_command (ctx : HelpContext) (command_str : String) : VResult :=
  let analysis := analyze_command ctx command_str
  if analysis.error ≠ none then analysis
  else
    match analysis.command with
    | some "search" => _validate_search analysis
    | some "add" => _validate_add analysis
    | some "modify" => _validate_modify analysis
    | some "delete" => _validate_delete command_str analysis
    | some "rename" => _validate_rename analysis
    | _ =>
      { analysis with
        validation := some "Command structure looks valid"
        preview := some ("Command would execute: " ++ command_str) }

/-! ### `QueryHistory` and `TabCompletion` (`tab_completion.py`)

Disk persistence (`save_history`/`load_history`) is I/O and is not
modelled; `_add_to_history` below is its in-memory effect on one
category list.  A Python string is falsy exactly when empty. -/

/-- Embeds `QueryHistory._add_to_history` on one category list: no-op on a
falsy value; remove an existing equal entry (`list.remove` drops the
first occurrence), append at the end, truncate to the 20 most recent. -/
def _add_to_history (hist : List String) (value : String) : List String :=
  if value = "" then hist
  else
    let h1 := if value ∈ hist then hist.erase value else hist
    let h2 := h1 ++ [value]
    if h2.length > 20 then h2.drop (h2.length - 20) else h2

/-- The fixed default search filters of
`TabCompletion.get_search_filters_completion`.  In the source they are
placed in a Python `set`, whose iteration order is unspecified, so
theorems about completion results are stated up to membership. -/
def defaultSearchFilters : List String :=
  [ "(objectClass=*)"
  , "(cn=*)"
  , "(uid=*)"
  , "(&(objectClass=person)(cn=*))"
  , "(|(uid=*)(mail=*))" ]

/-- Embeds `TabCompletion.get_search_filters_completion`: start from the set of
recorded search filters; only when that set is empty add the fixed
defaults; keep the candidates having `text` as a prefix. -/
def get_search_filters_completion (searchHistory : List String) (text : String) :
    List String :=
  let pool := if searchHistory.dedup = [] then defaultSearchFilters else searchHistory.dedup
  pool.filter (fun f => strStartsWith f text)

/-! ### Help overlay (`help_overlay.py`) -/

/-- The display model built by `get_help_for_position`. -/
structure OverlayHelp where
  title : String := ""
  help_text : String := ""
  suggestions : List String := []
  frequent_commands : List String := []
deriving DecidableEq

/-- Python `sorted(pairs, key=lambda x: x[1], reverse=True)`: a stable
sort, descending by count, embedded as insertion sort with the
(total, transitive) relation `fun u v => u.2 ≥ v.2`. -/
def sortByCountDesc (l : List (String × Nat)) : List (String × Nat) :=
  l.insertionSort (fun u v => u.2 ≥ v.2)

/-- The `cmd is None` branch of `get_help_for_position` (lines 96-110 of
`help_overlay.py`), reached when the partial input has no tokens yet:
list all catalog commands, and rank the used commands by descending
frequency (stable on ties), truncated to the top 5, keeping only
positive counts. -/
def get_help_for_position_no_command (ctx : HelpContext) : OverlayHelp :=
  let frequent := (sortByCountDesc ctx.command_frequency).take 5
  { title := "Available Commands"
    help_text := "Type a command to begin, or use 'help' for more information."
    suggestions := catalogKeys ctx.catalog
    frequent_commands := (frequent.filter (fun p => p.2 > 0)).map Prod.fst }

/-- The position of a command name in the pristine catalog (its length
when absent).  Used to state the claimed catalog-order tie-break. -/
def catalogRank (name : String) : Nat :=
  (catalogKeys COMMAND_PATTERNS).indexOf name

/-- The ordering the claim asserts for the "frequently used" sublist:
descending frequency with ties broken by catalog order. -/
def catalogTieOrdered (ctx : HelpContext) (names : List String) : Prop :=
  names.Pairwise (fun a b =>
    lookupCount ctx.command_frequency a > lookupCount ctx.command_frequency b
      ∨ (lookupCount ctx.command_frequency a = lookupCount ctx.command_frequency b
          ∧ catalogRank a < catalogRank b))

/-! ## Helper lemmas -/

/-- Below the capacity, the history ring buffer is a plain append. -/
theorem pushHistory_of_lt (h : List String) (s : String) (hlt : h.length < 20) :
    pushHistory h s = h ++ [s] := by
  show List.drop ((h ++ [s]).length - 20) (h ++ [s]) = h ++ [s]
  have hz : (h ++ [s]).length - 20 = 0 := by simp; omega
  rw [hz, List.drop_zero]

/-- At capacity, the ring buffer evicts the oldest entry (FIFO). -/
theorem pushHistory_of_eq (h : List String) (s : String) (hl : h.length = 20) :
    pushHistory h s = h.drop 1 ++ [s] := by
  show List.drop ((h ++ [s]).length - 20) (h ++ [s]) = h.drop 1 ++ [s]
  have h21 : (h ++ [s]).length - 20 = 1 := by simp [hl]
  rw [h21, List.drop_append_of_le_length (by omega)]

/-- Lemma: `add_command` always pushes the raw line, whatever its tokens. -/
theorem add_command_history (ctx : HelpContext) (line : String) :
    (add_command ctx line).command_history = pushHistory ctx.command_history line := by
  unfold add_command
  rcases tokenize line with _ | ⟨c, a⟩
  · simp
  · simp
    split <;> rfl

/-- Lemma: `add_command` on a tokenizable line bumps the leading token's counter. -/
theorem add_command_frequency (ctx : HelpContext) (line cmd : String) (args : List String)
    (htok : tokenize line = cmd :: args) :
    (add_command ctx line).command_frequency = bumpFreq ctx.command_frequency cmd := by
  unfold add_command
  rw [htok]
  simp
  split <;> rfl

theorem lookupCount_bumpFreq (f : List (String × Nat)) (cmd : String) :
    lookupCount (bumpFreq f cmd) cmd = lookupCount f cmd + 1 := by
  induction f with
  | nil => simp [bumpFreq, lookupCount]
  | cons p rest ih =>
    obtain ⟨k, n⟩ := p
    by_cases hk : k = cmd <;> simp [bumpFreq, lookupCount, hk, ih]

/-! ## C10 -/

/-- C10: on an empty or whitespace-only line, `add_command` still appends
the raw string to the bounded history (one slot) and changes nothing
else: no frequency counter moves and `current_context` is untouched. -/
theorem add_command_blank_line (ctx : HelpContext) (line : String)
    (htok : tokenize line = []) :
    add_command ctx line
        = { ctx with command_history := pushHistory ctx.command_history line }
      ∧ (ctx.command_history.length < 20 →
          (add_command ctx line).command_history = ctx.command_history ++ [line]) := by
  have hmain : add_command ctx line
      = { ctx with command_history := pushHistory ctx.command_history line } := by
    unfold add_command
    rw [htok]
  refine ⟨hmain, fun hlt => ?_⟩
  rw [hmain]
  exact pushHistory_of_lt _ _ hlt

/-- Witness for C10 at a whitespace-only line. -/
theorem add_command_blank_line_witness :
    add_command initHelpContext "   "
        = { initHelpContext with command_history := ["   "] }
      ∧ (add_command initHelpContext "   ").command_history = [] ++ ["   "] := by
  have h := add_command_blank_line initHelpContext "   " (by decide)
  exact ⟨h.1, h.2 (by decide)⟩

/-! ## C3 -/

/-- One `_add_to_history` step on a fresh non-empty value acts as append
followed by truncation to the 20 most recent. -/
theorem add_to_history_fresh (processed : List String) (v : String)
    (hv : v ≠ "") (hmem : v ∉ processed) :
    _add_to_history (processed.drop (processed.length - 20)) v
      = (processed ++ [v]).drop ((processed ++ [v]).length - 20) := by
  have hnm : v ∉ processed.drop (processed.length - 20) :=
    fun hc => hmem (List.mem_of_mem_drop hc)
  unfold _add_to_history
  rw [if_neg hv, if_neg hnm]
  by_cases h20 : processed.length < 20
  · have hz : processed.length - 20 = 0 := by omega
    have hz2 : (processed ++ [v]).length - 20 = 0 := by simp; omega
    have hlen : (processed.drop (processed.length - 20) ++ [v]).length ≤ 20 := by
      simp [hz]; omega
    rw [if_neg (by omega), hz, hz2, List.drop_zero, List.drop_zero]
  · have hge : 20 ≤ processed.length := by omega
    have hz : processed.length - 20 + 20 = processed.length := by omega
    have hacc : (processed.drop (processed.length - 20)).length = 20 := by
      simp
      omega
    have hlen : (processed.drop (processed.length - 20) ++ [v]).length = 21 := by
      simp [hacc]
    rw [if_pos (by omega), hlen]
    have h1 : (21 : Nat) - 20 = 1 := by norm_num
    rw [h1]
    have hd1 : (processed.drop (processed.length - 20) ++ [v]).drop 1
        = (processed.drop (processed.length - 20)).drop 1 ++ [v] :=
      List.drop_append_of_le_length (by omega)
    rw [hd1, List.drop_drop]
    have hr : (processed ++ [v]).length - 20 = processed.length - 20 + 1 := by
      simp; omega
    rw [hr, List.drop_append_of_le_length (by omega)]

/-- Folding fresh distinct non-empty values keeps exactly the 20 most
recent of everything processed so far. -/
theorem foldl_add_to_history (vs : List String) :
    ∀ processed : List String, (processed ++ vs).Nodup → (∀ v ∈ vs, v ≠ "") →
      List.foldl _add_to_history (processed.drop (processed.length - 20)) vs
        = (processed ++ vs).drop ((processed ++ vs).length - 20) := by
  induction vs with
  | nil => intro processed _ _; simp
  | cons v vs ih =>
    intro processed hnd hne
    have hvp : v ∉ processed := by
      have := List.disjoint_of_nodup_append hnd
      exact fun hm => this hm (List.mem_cons_self v vs)
    rw [List.foldl_cons,
      add_to_history_fresh processed v (hne v (List.mem_cons_self v vs)) hvp,
      ih (processed ++ [v]) (by simpa using hnd) (fun w hw => hne w (List.mem_cons_of_mem v hw))]
    simp

/-- C3: Query History category lists.  First part: starting from a
duplicate-free list within the bound, adding a non-empty value leaves
exactly one occurrence of it, at the most-recent (last) position, and
preserves the invariant (no duplicates, length at most 20); adding a
falsy (empty) value is a no-op.  Second part: adding any sequence of
distinct non-empty values to the empty store retains exactly the 20 most
recent of them. -/
theorem query_history_add_invariants :
    (∀ (hist : List String) (v : String), hist.Nodup → hist.length ≤ 20 →
      (v = "" → _add_to_history hist v = hist)
        ∧ (v ≠ "" →
            (_add_to_history hist v).count v = 1
              ∧ (_add_to_history hist v).getLast? = some v)
        ∧ (_add_to_history hist v).Nodup
        ∧ (_add_to_history hist v).length ≤ 20)
      ∧ (∀ vs : List String, vs.Nodup → (∀ v ∈ vs, v ≠ "") →
          List.foldl _add_to_history [] vs = vs.drop (vs.length - 20)) := by
  constructor
  · intro hist v hnd hlen
    by_cases hv : v = ""
    · subst hv
      simp only [_add_to_history, if_pos rfl]
      exact ⟨fun _ => rfl, fun hne => absurd rfl hne, hnd, hlen⟩
    · refine ⟨fun he => absurd he hv, ?_⟩
      have key : ∃ h1 : List String, h1.Nodup ∧ v ∉ h1 ∧ h1.length ≤ 20
          ∧ _add_to_history hist v
            = (if (h1 ++ [v]).length > 20
                then (h1 ++ [v]).drop ((h1 ++ [v]).length - 20) else (h1 ++ [v])) := by
        refine ⟨if v ∈ hist then hist.erase v else hist, ?_, ?_, ?_, ?_⟩
        · split
          · exact hnd.erase v
          · exact hnd
        · split
          · intro hc
            exact ((hnd.mem_erase_iff).1 hc).1 rfl
          · assumption
        · split
          · exact le_trans (List.length_erase_le v hist) hlen
          · exact hlen
        · simp only [_add_to_history, if_neg hv]
      obtain ⟨h1, h1nd, h1nm, h1len, heq⟩ := key
      rw [heq]
      by_cases htr : (h1 ++ [v]).length > 20
      · have hl20 : h1.length = 20 := by simp at htr; omega
        have hk1 : (h1 ++ [v]).length - 20 = 1 := by simp [hl20]
        rw [if_pos htr, hk1]
        have hda : (h1 ++ [v]).drop 1 = h1.drop 1 ++ [v] :=
          List.drop_append_of_le_length (by omega)
        have hnm2 : v ∉ h1.drop 1 :=
          fun hc => h1nm (List.mem_of_mem_drop hc)
        refine ⟨fun _ => ⟨?_, ?_⟩, ?_, ?_⟩
        · rw [hda, List.count_append, List.count_eq_zero.2 hnm2]
          simp
        · rw [hda]
          exact List.getLast?_concat _
        · rw [hda, List.nodup_append]
          exact ⟨h1nd.sublist (List.drop_sublist _ _), List.nodup_singleton v,
            fun a ha hb => absurd (List.mem_singleton.1 hb ▸ ha) hnm2⟩
        · rw [hda]
          simp [hl20]
      · rw [if_neg htr]
        refine ⟨fun _ => ⟨?_, ?_⟩, ?_, ?_⟩
        · rw [List.count_append]
          simp [List.count_eq_zero.2 h1nm]
        · exact List.getLast?_concat _
        · rw [List.nodup_append]
          exact ⟨h1nd, List.nodup_singleton v,
            fun a ha hb => absurd (List.mem_singleton.1 hb ▸ ha) h1nm⟩
        · omega
  · intro vs hnd hne
    have := foldl_add_to_history vs [] (by simpa using hnd) hne
    simpa using this

/-- Witness for C3: re-adding a present value promotes it (count one, at
the end), the empty value is a no-op, and 21 distinct adds keep the last
20. -/
theorem query_history_add_invariants_witness :
    ((_add_to_history ["a", "b"] "a").count "a" = 1
        ∧ (_add_to_history ["a", "b"] "a").getLast? = some "a")
      ∧ _add_to_history ["a", "b"] "" = ["a", "b"]
      ∧ List.foldl _add_to_history [] (List.range 21 |>.map (fun n => toString n))
          = ((List.range 21 |>.map (fun n => toString n)).drop 1) := by
  refine ⟨(query_history_add_invariants.1 ["a", "b"] "a" (by decide) (by decide)).2.1
      (by decide),
    (query_history_add_invariants.1 ["a", "b"] "" (by decide) (by decide)).1 rfl,
    ?_⟩
  have h := query_history_add_invariants.2 (List.range 21 |>.map (fun n => toString n))
    (by decide) (by decide)
  rw [h]
  norm_num

/-! ## C4 -/

/-- Pushing the same line onto a history of `min n 20` copies of it
yields `min (n+1) 20` copies. -/
theorem pushHistory_replicate (n : Nat) (line : String) :
    pushHistory (List.replicate (min n 20) line) line
      = List.replicate (min (n + 1) 20) line := by
  by_cases h : n < 20
  · rw [min_eq_left (le_of_lt h), min_eq_left (by omega),
      pushHistory_of_lt _ _ (by simp [h])]
    exact (List.replicate_succ' ..).symm
  · rw [min_eq_right (by omega), min_eq_right (by omega),
      pushHistory_of_eq _ _ (by simp)]
    have hd : (List.replicate 20 line).drop 1 = List.replicate 19 line := by
      rw [List.drop_replicate]
    rw [hd, ← List.replicate_succ']

/-- C4: calling `add_command` with one fixed line (whose leading token is
a known command) `N` times starting from the initial context increments
that command's frequency counter by exactly `N` (from 0 to `N`) and
leaves the history holding `min N 20` copies of the line, the capacity
being 20; the final conjunct shows the eviction at capacity is FIFO
(the oldest entry is dropped). -/
theorem add_command_repeated (line cmd : String) (args : List String) (N : Nat)
    (htok : tokenize line = cmd :: args)
    (_hknown : (lookupPattern COMMAND_PATTERNS cmd).isSome = true) :
    lookupCount (((fun c => add_command c line)^[N]) initHelpContext).command_frequency cmd
        = N
      ∧ ((fun c => add_command c line)^[N] initHelpContext).command_history
          = List.replicate (min N 20) line
      ∧ (∀ (h : List String) (v : String), h.length = 20 →
          pushHistory h v = h.drop 1 ++ [v]) := by
  have hfreq : ∀ c : HelpContext,
      lookupCount (add_command c line).command_frequency cmd
        = lookupCount c.command_frequency cmd + 1 := fun c => by
    rw [add_command_frequency c line cmd args htok, lookupCount_bumpFreq]
  refine ⟨?_, ?_, fun h v hl => pushHistory_of_eq h v hl⟩
  · induction N with
    | zero => rfl
    | succ n ih =>
      rw [Function.iterate_succ_apply', hfreq, ih]
  · induction N with
    | zero => simp [initHelpContext]
    | succ n ih =>
      rw [Function.iterate_succ_apply', add_command_history, ih, pushHistory_replicate]

/-- Witness for C4 at `N = 3` with the line `search h b`. -/
theorem add_command_repeated_witness :
    lookupCount
        (((fun c => add_command c "search h b")^[3]) initHelpContext).command_frequency
        "search" = 3
      ∧ ((fun c => add_command c "search h b")^[3] initHelpContext).command_history
          = List.replicate (min 3 20) "search h b" := by
  have h := add_command_repeated "search h b" "search" ["h", "b"] 3 (by decide) (by decide)
  exact ⟨h.1, h.2.1⟩

/-! ## C2 -/

/-- C2: in a connected-but-unauthenticated, non-SSL session state,
`get_suggestions` returns a tips list that is exactly the current
command's catalog common-error hints followed by the authentication tip
and then the TLS tip — so both session tips are present, the
authentication tip precedes the TLS tip, and both come after every
catalog-derived tip. -/
theorem get_suggestions_auth_ssl_tips (ctx : HelpContext)
    (hc : ctx.session_state.connected = true)
    (ha : ctx.session_state.authenticated = false)
    (hs : ctx.session_state.ssl_enabled = false) :
    (get_suggestions ctx).2.tips = catalogTips ctx ++ [authTip, sslTip] := by
  unfold get_suggestions catalogTips
  rcases ctx.current_context.command with _ | cmd
  · simp [hc, ha, hs]
  · rcases hpat : lookupPattern ctx.catalog cmd with _ | pat <;>
      simp [hpat, hc, ha, hs]

/-- Witness for C2: a context whose current command is `search`,
connected, unauthenticated, without SSL. -/
theorem get_suggestions_auth_ssl_tips_witness :
    (get_suggestions { initHelpContext with
        current_context := { command := some "search" }
        session_state := { connected := true } }).2.tips
      = catalogTips { initHelpContext with
          current_context := { command := some "search" }
          session_state := { connected := true } } ++ [authTip, sslTip] :=
  get_suggestions_auth_ssl_tips _ rfl rfl rfl

/-! ## C5 and C6 -/

/-- Lemma: `analyze_command` on a line whose leading token is a known command
with enough arguments returns the pass-through analysis record. -/
theorem analyze_known (line cmd : String) (args : List String)
    (htok : tokenize line = cmd :: args) (pat : CommandPattern)
    (hp : lookupPattern initHelpContext.catalog cmd = some pat)
    (hreq : ¬(args.length + 1 < requiredCount pat.synopsis + 1)) :
    analyze_command initHelpContext line
      = { command := some cmd, arguments := args,
          synopsis := some pat.synopsis, examples := pat.examples,
          next_steps := pat.next_steps, common_errors := pat.common_errors } := by
  unfold analyze_command
  rw [htok]
  simp only [hp, if_neg hreq]

/-- C5: validating `search <host> <base_dn> <filter>` when the filter
token is not wrapped in parentheses yields a warning (no error) whose
suggestion echoes the host and base-DN tokens unchanged and wraps the
filter in parentheses; when the filter is already parenthesised,
validation succeeds with no warning. -/
theorem validate_search_filter (line h b f : String)
    (htok : tokenize line = ["search", h, b, f]) :
    ((strStartsWith f "(" && strEndsWith f ")") = false →
        (validate_command initHelpContext line).error = none
          ∧ (validate_command initHelpContext line).warning
              = some "LDAP filter should be enclosed in parentheses"
          ∧ (validate_command initHelpContext line).suggestion
              = some ("Try: search " ++ h ++ " " ++ b ++ " '(" ++ f ++ ")'")
          ∧ h.data <:+: ("Try: search " ++ h ++ " " ++ b ++ " '(" ++ f ++ ")'").data
          ∧ b.data <:+: ("Try: search " ++ h ++ " " ++ b ++ " '(" ++ f ++ ")'").data
          ∧ ("(" ++ f ++ ")").data
              <:+: ("Try: search " ++ h ++ " " ++ b ++ " '(" ++ f ++ ")'").data)
      ∧ ((strStartsWith f "(" && strEndsWith f ")") = true →
          (validate_command initHelpContext line).error = none
            ∧ (validate_command initHelpContext line).warning = none
            ∧ (validate_command initHelpContext line).validation
                = some "Search command looks valid") := by
  have hsome : (lookupPattern initHelpContext.catalog "search").isSome = true := by decide
  obtain ⟨pat, hp⟩ := Option.isSome_iff_exists.mp hsome
  have hreq : requiredCount pat.synopsis = 2 := by
    have h2 : (lookupPattern initHelpContext.catalog "search").map
        (fun p => requiredCount p.synopsis) = some 2 := by decide
    rw [hp, Option.map_some'] at h2
    exact Option.some.inj h2
  have hana := analyze_known line "search" [h, b, f] htok pat hp (by rw [hreq]; simp)
  unfold validate_command
  rw [hana]
  constructor
  · intro hf
    simp only [_validate_search, hf]
    refine ⟨by norm_num, by norm_num, by norm_num,
      ⟨"Try: search ".data, (" " ++ b ++ " '(" ++ f ++ ")'").data, ?_⟩,
      ⟨("Try: search " ++ h ++ " ").data, (" '(" ++ f ++ ")'").data, ?_⟩,
      ⟨("Try: search " ++ h ++ " " ++ b ++ " '").data, "'".data, ?_⟩⟩ <;>
      simp [String.data_append]
  · intro hf
    simp only [_validate_search, hf]
    norm_num

/-- Witness for C5 on `search h b objectClass=person` (unparenthesised)
and `search h b (objectClass=person)` (parenthesised). -/
theorem validate_search_filter_witness :
    ((validate_command initHelpContext "search h b objectClass=person").warning
        = some "LDAP filter should be enclosed in parentheses"
      ∧ (validate_command initHelpContext "search h b objectClass=person").suggestion
          = some ("Try: search " ++ "h" ++ " " ++ "b" ++ " '(" ++ "objectClass=person" ++ ")'"))
      ∧ (validate_command initHelpContext "search h b (objectClass=person)").warning
          = none := by
  have h1 := (validate_search_filter "search h b objectClass=person"
    "h" "b" "objectClass=person" (by decide)).1 (by decide)
  have h2 := (validate_search_filter "search h b (objectClass=person)"
    "h" "b" "(objectClass=person)" (by decide)).2 (by decide)
  exact ⟨⟨h1.2.1, h1.2.2.1⟩, h2.2.1⟩

/-- C6: validating a well-formed delete command yields the weak
leaf-only warning plus a suggestion to add the recursive flag when
neither recursive flag token occurs in the raw line, and the stronger
irreversible-recursion warning (with no suggestion) otherwise; the two
warnings are distinct strings. -/
theorem validate_delete_warnings (line host dn : String) (rest : List String)
    (htok : tokenize line = "delete" :: host :: dn :: rest) :
    ((strContains line "--recursive" = false ∧ strContains line "-r" = false) →
        (validate_command initHelpContext line).error = none
          ∧ (validate_command initHelpContext line).warning
              = some "Note: This will only delete the entry if it has no children"
          ∧ (validate_command initHelpContext line).suggestion
              = some "Add --recursive flag to delete the entry and all its children")
      ∧ ((strContains line "--recursive" = true ∨ strContains line "-r" = true) →
          (validate_command initHelpContext line).error = none
            ∧ (validate_command initHelpContext line).warning
                = some "This will delete the entry and all its children recursively"
            ∧ (validate_command initHelpContext line).suggestion = none)
      ∧ ("Note: This will only delete the entry if it has no children" : String)
          ≠ "This will delete the entry and all its children recursively" := by
  have hsome : (lookupPattern initHelpContext.catalog "delete").isSome = true := by decide
  obtain ⟨pat, hp⟩ := Option.isSome_iff_exists.mp hsome
  have hreq : requiredCount pat.synopsis = 2 := by
    have h2 : (lookupPattern initHelpContext.catalog "delete").map
        (fun p => requiredCount p.synopsis) = some 2 := by decide
    rw [hp, Option.map_some'] at h2
    exact Option.some.inj h2
  have hana := analyze_known line "delete" (host :: dn :: rest) htok pat hp
    (by rw [hreq]; simp)
  unfold validate_command
  rw [hana]
  refine ⟨?_, ?_, by decide⟩
  · rintro ⟨hr1, hr2⟩
    simp [_validate_delete, hr1, hr2]
  · intro hr
    have hcond : (!strContains line "--recursive" && !strContains line "-r") = false := by
      rcases hr with hr | hr <;> simp [hr]
    simp only [_validate_delete, hcond]
    norm_num

/-- Witness for C6 on `delete h dn` (no recursive flag) and
`delete h dn --recursive`. -/
theorem validate_delete_warnings_witness :
    ((validate_command initHelpContext "delete h dn").warning
        = some "Note: This will only delete the entry if it has no children"
      ∧ (validate_command initHelpContext "delete h dn").suggestion
          = some "Add --recursive flag to delete the entry and all its children")
      ∧ (validate_command initHelpContext "delete h dn --recursive").warning
          = some "This will delete the entry and all its children recursively" := by
  have h1 := (validate_delete_warnings "delete h dn" "h" "dn" [] (by decide)).1
    ⟨by decide, by decide⟩
  have h2 := (validate_delete_warnings "delete h dn --recursive" "h" "dn" ["--recursive"]
    (by decide)).2.1 (Or.inl (by decide))
  exact ⟨⟨h1.2.1, h1.2.2⟩, h2.2.1⟩

/-! ## C7 -/

theorem insertRanked_ne_nil (word x : String) (l : List String) :
    insertRanked word x l ≠ [] := by
  cases l with
  | nil => simp [insertRanked]
  | cons y ys =>
    unfold insertRanked
    split <;> simp

theorem rankMatches_eq_nil_iff (word : String) (l : List String) :
    rankMatches word l = [] ↔ l = [] := by
  cases l with
  | nil => simp [rankMatches]
  | cons x xs =>
    simp only [rankMatches]
    exact ⟨fun h => absurd h (insertRanked_ne_nil word x _), fun h => by simp at h⟩

theorem get_close_matches_eq_nil_iff (word : String) (names : List String) :
    get_close_matches word names 3 = []
      ↔ names.filter (fun x => similar word x) = [] := by
  unfold get_close_matches
  rw [List.take_eq_nil_iff, rankMatches_eq_nil_iff]
  simp

/-- C7: `analyze_command` on an empty or whitespace-only line returns
exactly the `Empty command` error record; on a line whose leading token
is not a known command it returns an error result, carrying a
`suggested_commands` field if and only if at least one catalog command
name is within the `difflib` similarity cutoff (ratio 0.6) of the
leading token. -/
theorem analyze_unknown_command :
    (∀ line : String, tokenize line = [] →
        analyze_command initHelpContext line = { error := some "Empty command" })
      ∧ (∀ (line cmd : String) (args : List String), tokenize line = cmd :: args →
          lookupPattern initHelpContext.catalog cmd = none →
          (analyze_command initHelpContext line).error ≠ none
            ∧ ((analyze_command initHelpContext line).suggested_commands ≠ none
                ↔ ∃ name ∈ catalogKeys COMMAND_PATTERNS, similar cmd name = true)) := by
  constructor
  · intro line htok
    unfold analyze_command
    rw [htok]
  · intro line cmd args htok hlook
    unfold analyze_command
    rw [htok]
    cases hm : get_close_matches cmd (catalogKeys initHelpContext.catalog) 3 with
    | nil =>
      have hm2 : get_close_matches cmd (catalogKeys COMMAND_PATTERNS) 3 = [] := hm
      have hnone := List.filter_eq_nil_iff.mp ((get_close_matches_eq_nil_iff cmd _).mp hm2)
      simp only [hlook, hm]
      refine ⟨by simp, Iff.intro (fun hcontra => absurd rfl hcontra) ?_⟩
      rintro ⟨name, hmem, hsim⟩
      exact absurd hsim (hnone name hmem)
    | cons m ms =>
      have hm2 : get_close_matches cmd (catalogKeys COMMAND_PATTERNS) 3 = m :: ms := hm
      have hne : (catalogKeys COMMAND_PATTERNS).filter (fun x => similar cmd x) ≠ [] := by
        intro hnil
        have hz := (get_close_matches_eq_nil_iff cmd (catalogKeys COMMAND_PATTERNS)).mpr hnil
        exact List.cons_ne_nil m ms (hm2.symm.trans hz)
      obtain ⟨a, ha⟩ := List.exists_mem_of_ne_nil _ hne
      have hmem := List.mem_filter.mp ha
      simp only [hlook, hm]
      exact ⟨by simp, Iff.intro (fun _ => ⟨a, hmem.1, hmem.2⟩) (fun _ => by simp)⟩

/-- Witness for C7: the empty line, and the unknown token `serch`
(fuzzy-close to `search`). -/
theorem analyze_unknown_command_witness :
    analyze_command initHelpContext "" = { error := some "Empty command" }
      ∧ (analyze_command initHelpContext "serch x").error ≠ none
      ∧ ((analyze_command initHelpContext "serch x").suggested_commands ≠ none
          ↔ ∃ name ∈ catalogKeys COMMAND_PATTERNS, similar "serch" name = true) := by
  refine ⟨analyze_unknown_command.1 "" (by decide), ?_, ?_⟩
  · exact (analyze_unknown_command.2 "serch x" "serch" ["x"] (by decide) (by decide)).1
  · exact (analyze_unknown_command.2 "serch x" "serch" ["x"] (by decide) (by decide)).2

/-! ## C9 -/

/-- Stability of `orderedInsert` under the descending-count relation,
expressed through per-count filtering. -/
theorem filter_count_orderedInsert (a : String × Nat) (l : List (String × Nat)) (c : Nat) :
    (List.orderedInsert (fun u v => u.2 ≥ v.2) a l).filter (fun p => p.2 = c)
      = if a.2 = c then a :: l.filter (fun p => p.2 = c)
        else l.filter (fun p => p.2 = c) := by
  induction l with
  | nil =>
    simp only [List.orderedInsert, List.filter]
    split <;> simp_all
  | cons b bs ih =>
    by_cases hab : a.2 ≥ b.2
    · simp only [List.orderedInsert, if_pos hab]
      by_cases hac : a.2 = c <;> simp [List.filter_cons, hac]
    · simp only [List.orderedInsert, if_neg hab]
      by_cases hbc : b.2 = c
      · have hac : ¬(a.2 = c) := by omega
        simp [List.filter_cons, hbc, ih, hac]
      · simp [List.filter_cons, hbc, ih]

/-- The stable descending sort preserves, for each count value, the
original order of the entries with that count. -/
theorem filter_count_sortByCountDesc (l : List (String × Nat)) (c : Nat) :
    (sortByCountDesc l).filter (fun p => p.2 = c) = l.filter (fun p => p.2 = c) := by
  induction l with
  | nil => rfl
  | cons a as ih =>
    have hstep : sortByCountDesc (a :: as)
        = List.orderedInsert (fun u v => u.2 ≥ v.2) a (sortByCountDesc as) := rfl
    rw [hstep, filter_count_orderedInsert]
    by_cases hac : a.2 = c
    · rw [if_pos hac, ih]
      simp [List.filter_cons, hac]
    · rw [if_neg hac, ih]
      simp [List.filter_cons, hac]

/-- The stable descending sort is sorted by descending count. -/
theorem sortByCountDesc_sorted (l : List (String × Nat)) :
    (sortByCountDesc l).Pairwise (fun u v => u.2 ≥ v.2) := by
  haveI : IsTotal (String × Nat) (fun u v => u.2 ≥ v.2) := ⟨fun a b => le_total b.2 a.2⟩
  haveI : IsTrans (String × Nat) (fun u v => u.2 ≥ v.2) :=
    ⟨fun _ _ _ hab hbc => le_trans hbc hab⟩
  exact List.sorted_insertionSort _ l

/-- C9 counterexample: after recording `info …` and then `search …`
(both once), the overlay's "frequently used" sublist is
`["info", "search"]` — a frequency tie broken by order of first use —
whereas catalog order would demand `search` before `info`, so the
claimed catalog-order tie-break fails. -/
theorem overlay_frequent_counterexample :
    (get_help_for_position_no_command
        (add_command (add_command initHelpContext "info ldap.example.com")
          "search ldap.example.com dc=example,dc=com")).frequent_commands
        = ["info", "search"]
      ∧ ¬ catalogTieOrdered
          (add_command (add_command initHelpContext "info ldap.example.com")
            "search ldap.example.com dc=example,dc=com")
          (get_help_for_position_no_command
            (add_command (add_command initHelpContext "info ldap.example.com")
              "search ldap.example.com dc=example,dc=com")).frequent_commands := by
  constructor
  · decide
  · intro hord
    rw [(by decide : (get_help_for_position_no_command
        (add_command (add_command initHelpContext "info ldap.example.com")
          "search ldap.example.com dc=example,dc=com")).frequent_commands
        = ["info", "search"])] at hord
    have h := List.rel_of_pairwise_cons hord (List.mem_singleton_self "search")
    revert h
    decide

/-- C9 as amended: with the input cursor before any command token, the
overlay lists all catalog command names, and its "frequently used"
sublist is obtained from a ranking of the usage counters that is sorted
by descending frequency and breaks ties by order of first use (the
counter map's insertion order, witnessed by per-count filter equality) —
not catalog order — truncated to the top 5 and keeping only positive
counters. -/
theorem overlay_frequent_characterization (ctx : HelpContext) :
    ∃ ranked : List (String × Nat),
      (get_help_for_position_no_command ctx).frequent_commands
          = ((ranked.take 5).filter (fun p => p.2 > 0)).map Prod.fst
        ∧ ranked.Pairwise (fun u v => u.2 ≥ v.2)
        ∧ (∀ c, ranked.filter (fun p => p.2 = c)
            = ctx.command_frequency.filter (fun p => p.2 = c))
        ∧ (get_help_for_position_no_command ctx).suggestions = catalogKeys ctx.catalog :=
  ⟨sortByCountDesc ctx.command_frequency, rfl, sortByCountDesc_sorted _,
    fun c => filter_count_sortByCountDesc _ c, rfl⟩

/-! ## C1 -/

/-- The failing input for C1: current command `search`, connected but
not authenticated and without SSL, pristine catalog. -/
def mutationInput : HelpContext :=
  { initHelpContext with
    current_context := { command := some "search" }
    session_state := { connected := true } }

/-- C1 (code bug evidence): with current command `search` on a connected,
unauthenticated session, `get_suggestions` mutates the catalog in place —
the `search` entry's common-error list grows by the two session tips
(because the returned `tips` list is the catalog's own list object) — and
a second call therefore returns a different, longer tips list.  The spec
says the catalog is read-only after load and `get_suggestions` is a pure
read. -/
theorem get_suggestions_mutates_catalog :
    (lookupPattern ((get_suggestions mutationInput).1.catalog) "search"
        ≠ lookupPattern mutationInput.catalog "search")
      ∧ ((lookupPattern ((get_suggestions mutationInput).1.catalog) "search").map
            CommandPattern.common_errors
          = some ([ "Missing quotes around base_dn or filter"
                  , "Invalid filter syntax"
                  , "Using special characters without escaping"] ++ [authTip, sslTip]))
      ∧ (get_suggestions ((get_suggestions mutationInput).1)).2.tips
          ≠ (get_suggestions mutationInput).2.tips := by
  decide

/-! ## C8 -/

/-- C8 counterexample: with exactly one recorded search filter, the
completion result for a matching prefix is that filter alone — the fixed
defaults, though they match the prefix, are not merged alongside it, so
the claimed source-merge fails. -/
theorem search_filter_completion_counterexample :
    get_search_filters_completion ["(mail=*)"] "(" = ["(mail=*)"]
      ∧ "(objectClass=*)" ∉ get_search_filters_completion ["(mail=*)"] "("
      ∧ "(objectClass=*)" ∈ defaultSearchFilters
      ∧ strStartsWith "(objectClass=*)" "(" = true := by
  decide

/-- C8 as amended: the search-filter completion pool is the recorded
search-filter history alone when any history exists, and the fixed
defaults only when the history is empty; in both cases the result keeps
exactly the candidates having the typed text as a prefix. -/
theorem search_filter_completion_sources (hist : List String) (text : String) :
    (hist = [] → ∀ f, f ∈ get_search_filters_completion hist text ↔
        f ∈ defaultSearchFilters ∧ strStartsWith f text = true)
      ∧ (hist ≠ [] → ∀ f, f ∈ get_search_filters_completion hist text ↔
          f ∈ hist ∧ strStartsWith f text = true) := by
  constructor
  · rintro rfl f
    simp [get_search_filters_completion, List.mem_filter]
  · intro hne f
    have hd : hist.dedup ≠ [] := by
      simpa [List.dedup_eq_nil] using hne
    simp [get_search_filters_completion, List.mem_filter, hd, List.mem_dedup]

/-- Witness for C8's amended theorem: one recorded filter, prefix `(`. -/
theorem search_filter_completion_sources_witness :
    "(mail=*)" ∈ get_search_filters_completion ["(mail=*)"] "("
      ↔ "(mail=*)" ∈ ["(mail=*)"] ∧ strStartsWith "(mail=*)" "(" = true :=
  (search_filter_completion_sources ["(mail=*)"] "(").2 (by decide) "(mail=*)"

end Ldapie
